import Mathlib

/-!
# Verification of the terminal-session reconstruction pipeline (wut/utils.py)

A shallow embedding of the pure core of `src/wut/utils.py`:
token-budgeted truncation (`count_tokens`, `truncate_tokens`), shell-name
normalization (`get_shell_name`), pane capture cleanup (`get_pane_output`,
modelled as a state-effect summary), session segmentation (`get_commands`),
per-record truncation (`truncate_commands`), flat-mode truncation
(`truncate_pane_output`) and context assembly (`get_terminal_context`).

Python strings are modelled as Lean `String`; Python integers as `Int`;
Python functions that can raise uncaught exceptions (IndexError on
`line.split(prompt, 1)[1]`, IndexError on `commands[-1]`) return `Option`,
with `none` standing for the raised exception.

The tokenizer (`tiktoken.get_encoding("cl100k_base")`) is an external
vendor library, so all token-dependent definitions are parameterized over an
abstract encoder `enc : String → List τ` and decoder `dec : List τ → String`;
the spec requires the pair to be lossless (round-trip identity), which is
taken as a hypothesis exactly where needed.
-/

set_option autoImplicit false

namespace Wut

/-! ### Python string primitives

Faithful models of the Python builtins the source uses: `str.splitlines`,
`str.strip`, `str.lower`, the `in` substring test, `str.split(sep, 1)`,
and slicing with possibly negative indices. `str.lower` is modelled on ASCII
(all inputs in this development are ASCII). -/

/-- Characters Python's `str.splitlines` treats as line boundaries. -/
def isLineBreakChar (c : Char) : Bool :=
  c = '\n' || c = '\r' || c = '\x0b' || c = '\x0c' ||
  c = '\x1c' || c = '\x1d' || c = '\x1e' || c = '\x85' ||
  c.toNat = 0x2028 || c.toNat = 0x2029

/-- Worker for `py_splitlines`: `acc` holds the current line, reversed. -/
def py_splitlines_aux : List Char → List Char → List String
  | [], acc => if acc.isEmpty then [] else [String.mk acc.reverse]
  | '\r' :: '\n' :: rest, acc => String.mk acc.reverse :: py_splitlines_aux rest []
  | c :: rest, acc =>
    if isLineBreakChar c then String.mk acc.reverse :: py_splitlines_aux rest []
    else py_splitlines_aux rest (c :: acc)

/-- Python `str.splitlines()`: no trailing empty line for a trailing newline,
`"" → []`, `"\n" → [""]`. -/
def py_splitlines (s : String) : List String :=
  py_splitlines_aux s.data []

/-- Characters Python's `str.strip()` removes (the whitespace class,
restricted to the code points that can occur in this development plus the
common Unicode spaces). -/
def py_isspace (c : Char) : Bool :=
  c = ' ' || c = '\t' || c = '\n' || c = '\r' || c = '\x0b' || c = '\x0c' ||
  c = '\x1c' || c = '\x1d' || c = '\x1e' || c = '\x1f' ||
  c = '\x85' || c = '\xa0' || c.toNat = 0x1680 ||
  (0x2000 ≤ c.toNat && c.toNat ≤ 0x200a) ||
  c.toNat = 0x2028 || c.toNat = 0x2029 || c.toNat = 0x202f || c.toNat = 0x205f || c.toNat = 0x3000

/-- Python `str.strip()` with no arguments. -/
def py_strip (s : String) : String :=
  String.mk (((s.data.dropWhile py_isspace).reverse.dropWhile py_isspace).reverse)

/-- ASCII lowercasing of one character (`str.lower`, ASCII fragment). -/
def py_lower_char (c : Char) : Char :=
  if 'A' ≤ c ∧ c ≤ 'Z' then Char.ofNat (c.toNat + 32) else c

/-- Python `str.lower()` (ASCII fragment). -/
def py_lower (s : String) : String :=
  String.mk (s.data.map py_lower_char)

/-- Substring test on character lists: does `needle` occur inside `hay`? -/
def list_contains_sub : List Char → List Char → Bool
  | _, [] => true
  | [], _ :: _ => false
  | c :: rest, needle => needle.isPrefixOf (c :: rest) || list_contains_sub rest needle

/-- Python `needle in hay` for strings. -/
def py_contains (hay needle : String) : Bool :=
  list_contains_sub hay.data needle.data

/-- Worker for `py_split_first`: scans for the first occurrence of `sep`. -/
def py_split_first_aux (sep : List Char) : List Char → List Char → Option (String × String)
  | [], _ => none
  | c :: rest, acc =>
    if sep.isPrefixOf (c :: rest) then
      some (String.mk acc.reverse, String.mk ((c :: rest).drop sep.length))
    else py_split_first_aux sep rest (c :: acc)

/-- Python `s.split(sep, 1)` followed by indexing `[1]`: `some (before, after)`
when `sep` occurs in `s`, otherwise `none` (Python raises IndexError when the
split yields a single element, and ValueError when `sep` is empty). -/
def py_split_first (s sep : String) : Option (String × String) :=
  if sep.data = [] then none
  else py_split_first_aux sep.data s.data []

/-- Python `l[:e]` for an arbitrary (possibly negative) integer bound. -/
def py_slice_stop {τ : Type} (l : List τ) (e : Int) : List τ :=
  if 0 ≤ e then l.take e.toNat else l.take (l.length - (-e).toNat)

/-- Python `l[s:]` for an arbitrary (possibly negative) integer start. -/
def py_slice_start {τ : Type} (l : List τ) (s : Int) : List τ :=
  if 0 ≤ s then l.drop s.toNat else l.drop (l.length - (-s).toNat)

/-! ### Data model (utils.py lines 22-27) -/

/-- `SHELLS` (utils.py line 22). -/
def SHELLS : List String :=
  ["bash", "fish", "zsh", "csh", "tcsh", "powershell", "pwsh"]

/-- `Shell` namedtuple (utils.py line 26); every field may be Python `None`. -/
structure Shell where
  path : Option String
  name : Option String
  prompt : Option String
deriving DecidableEq

/-- `Command` namedtuple (utils.py line 27). -/
structure Command where
  text : String
  output : String
deriving DecidableEq

/-! ### Token meter (utils.py lines 35-42)

`tokenizer.encode` / `tokenizer.decode` are the abstract `enc` / `dec`. -/

/-- `count_tokens` (utils.py lines 35-36). -/
def count_tokens {τ : Type} (enc : String → List τ) (text : String) : Nat :=
  (enc text).length

/-- `truncate_tokens` (utils.py lines 39-42): encode, slice
(`tokens[-max_tokens:]` when `reverse`, `tokens[:max_tokens]` otherwise),
decode. -/
def truncate_tokens {τ : Type} (enc : String → List τ) (dec : List τ → String)
    (text : String) (max_tokens : Int) (rev : Bool) : String :=
  let tokens := enc text
  let tokens := if rev then py_slice_start tokens (-max_tokens) else py_slice_stop tokens max_tokens
  dec tokens

/-- A concrete lossless tokenizer used to instantiate the abstract encoder on
concrete inputs: one token per character. Modelled from the spec: the spec
fixes only the tokenizer's interface (deterministic count, lossless
round-trip); the vendor scheme itself (tiktoken cl100k_base) is external to
the repository. -/
def charEncode (s : String) : List Char := s.data

/-- Decoder paired with `charEncode`. -/
def charDecode (l : List Char) : String := String.mk l

/-! ### Shell-name normalization (utils.py lines 45-58) -/

/-- `os.path.splitext` (posix): split off the extension of the last path
component; the extension keeps its leading dot, and a basename consisting of
leading dots only has no extension. -/
def splitext (p : String) : String × String :=
  let cs := p.data
  let base := (cs.reverse.takeWhile (fun c => c != '/')).reverse
  if base.contains '.' then
    let afterDot := base.reverse.takeWhile (fun c => c != '.')
    let ext := '.' :: afterDot.reverse
    let pre := base.take (base.length - ext.length)
    if pre.any (fun c => c != '.') then
      (String.mk (cs.take (cs.length - ext.length)), String.mk ext)
    else (p, "")
  else (p, "")

/-- `get_shell_name` (utils.py lines 45-58): extension check, then
root check, then raw lowercase check against `SHELLS`; `None`/empty input is
rejected up front. -/
def get_shell_name (shell_path : Option String) : Option String :=
  match shell_path with
  | none => none
  | some p =>
    if p = "" then none
    else
      let e := py_lower (splitext p).2
      if e ∈ SHELLS then some e
      else
        let r := py_lower (splitext p).1
        if r ∈ SHELLS then some r
        else if py_lower p ∈ SHELLS then some (py_lower p)
        else none

/-! ### Pane capture (utils.py lines 121-153)

`get_pane_output` interacts with the OS: it creates a named temporary file
(with `delete=False`), dispatches on the `TMUX` / `STY` environment
variables, runs the multiplexer capture command, reads the file back, and
removes the file in the `if output_file: os.remove(output_file)` line that
follows the `try` block. The embedding summarizes one call as a function of
the environment, recording the returned string and whether the temporary
file was removed before the function returned. Per the modelled call, the
temporary file has been created successfully (the claim under verification
conditions on this); `run` (tmux branch) never raises `CalledProcessError`,
`check_output` (screen branch) raises it exactly when the command exits
non-zero, and that exception is the only one the `except` clause catches. -/

/-- Environment and child-process behavior visible to one `get_pane_output`
call. -/
structure CaptureEnv where
  tmux : Option String
  sty : Option String
  tmux_capture : String
  screen_ok : Bool
  screen_capture : String
deriving DecidableEq

/-- Python truthiness of an `os.getenv` result. -/
def envTruthy : Option String → Bool
  | some s => s ≠ ""
  | none => false

/-- Summary of one `get_pane_output` call: the returned string and whether
the temporary file was removed before returning. -/
structure PaneCapture where
  output : String
  temp_removed : Bool
deriving DecidableEq

/-- `get_pane_output` (utils.py lines 121-153). The `else: return ""` branch
(no multiplexer detected) returns from inside the `with`/`try` block, and the
`os.remove` sits after the `try` with no `finally`, so that branch returns
without removing the file; the tmux branch and both screen branches
(success, and `CalledProcessError` caught by the `except`) fall through to
the `os.remove`. -/
def get_pane_output (env : CaptureEnv) : PaneCapture :=
  if envTruthy env.tmux then
    { output := env.tmux_capture, temp_removed := true }
  else if envTruthy env.sty then
    if env.screen_ok then { output := env.screen_capture, temp_removed := true }
    else { output := "", temp_removed := true }
  else
    { output := "", temp_removed := false }

/-! ### Session segmenter (utils.py lines 156-175) -/

/-- The reverse scan of `get_commands` (utils.py lines 160-173): blank lines
are skipped; a non-blank line containing the prompt case-insensitively is
split on the first case-sensitive occurrence of the prompt (`none` models
the IndexError raised by `line.split(shell.prompt, 1)[1]` when there is no
such occurrence); other lines are appended to the output buffer. -/
def commands_loop (prompt : String) : List String → List String → Option (List Command)
  | [], _ => some []
  | line :: rest, buffer =>
    if py_strip line = "" then commands_loop prompt rest buffer
    else if py_contains (py_lower line) (py_lower prompt) then
      match py_split_first line prompt with
      | none => none
      | some (_, after) =>
        (commands_loop prompt rest []).map
          (fun commands =>
            Command.mk (py_strip after)
              (py_strip (String.intercalate "\n" buffer.reverse)) :: commands)
    else commands_loop prompt rest (buffer ++ [line])

/-- `get_commands` (utils.py lines 156-175): run the reverse scan, then
return `commands[1:]` (the record of the in-flight invocation is dropped).
Accessing `shell.prompt` when it is Python `None` raises, modelled as
`none`. -/
def get_commands (pane_output : String) (shell : Shell) : Option (List Command) :=
  match shell.prompt with
  | none => none
  | some prompt =>
    (commands_loop prompt ((py_splitlines pane_output).reverse) []).map
      (fun commands => commands.drop 1)

/-! ### Budgeted truncator (utils.py lines 178-216) -/

/-- The inner loop of `truncate_commands` (utils.py lines 186-192): scan the
output lines in reverse, keeping each while its token count plus
`num_tokens` stays within `max_tokens`, stopping at the first that does
not. -/
def output_lines_loop {τ : Type} (enc : String → List τ) (num_tokens max_tokens : Int) :
    List String → List String
  | [] => []
  | line :: rest =>
    if (count_tokens enc line : Int) + num_tokens > max_tokens then []
    else line :: output_lines_loop enc num_tokens max_tokens rest

/-- The outer loop of `truncate_commands` (utils.py lines 181-196),
parameterized by the (never-incremented) `num_tokens` counter. -/
def truncate_commands_loop {τ : Type} (enc : String → List τ) (num_tokens max_tokens : Int) :
    List Command → List Command
  | [] => []
  | command :: rest =>
    if (count_tokens enc command.text : Int) + num_tokens > max_tokens then []
    else
      let output := String.intercalate "\n"
        (output_lines_loop enc num_tokens max_tokens
          ((py_splitlines command.output).reverse)).reverse
      Command.mk command.text output :: truncate_commands_loop enc num_tokens max_tokens rest

/-- `truncate_commands` (utils.py lines 178-198): `num_tokens` is
initialized to `0` and never changed. -/
def truncate_commands {τ : Type} (enc : String → List τ)
    (commands : List Command) (max_tokens : Int) : List Command :=
  truncate_commands_loop enc 0 max_tokens commands

/-- The rebuilt form of one retained command: text kept, output rebuilt
line-by-line against the raw budget (`num_tokens = 0`). -/
def truncate_command_entry {τ : Type} (enc : String → List τ) (max_tokens : Int)
    (c : Command) : Command :=
  Command.mk c.text
    (String.intercalate "\n"
      (output_lines_loop enc 0 max_tokens ((py_splitlines c.output).reverse)).reverse)

/-- The flag-driven line scan of `truncate_pane_output` (utils.py lines
202-209): the flag becomes true at the first non-blank line and every line
from that point on is retained. -/
def pane_lines_loop : List String → Bool → List String
  | [], _ => []
  | line :: rest, hit_non_empty_line =>
    let hit := hit_non_empty_line || (py_strip line != "")
    if hit then line :: pane_lines_loop rest hit else pane_lines_loop rest hit

/-- `truncate_pane_output` (utils.py lines 201-216): reverse scan with the
non-blank flag, drop the first retained line (`lines[1:]`), re-join in
forward order, token-truncate keeping the end, strip. -/
def truncate_pane_output {τ : Type} (enc : String → List τ) (dec : List τ → String)
    (output : String) (max_tokens : Int) : String :=
  let lines := pane_lines_loop ((py_splitlines output).reverse) false
  let lines := lines.drop 1
  let joined := String.intercalate "\n" lines.reverse
  py_strip (truncate_tokens enc dec joined max_tokens true)

/-! ### Context assembler (utils.py lines 219-223 and 280-308) -/

/-- `command_to_string` (utils.py lines 219-223). -/
def command_to_string (command : Command) (shell_prompt : Option String) : String :=
  let p := match shell_prompt with
    | some s => if s = "" then "$" else s
    | none => "$"
  let command_str := p ++ " " ++ command.text
  if py_strip command.output ≠ "" then command_str ++ "\n" ++ command.output
  else command_str

/-- Python truthiness of `shell.prompt`. -/
def promptTruthy (shell : Shell) : Bool :=
  match shell.prompt with
  | some s => s ≠ ""
  | none => false

/-- `get_terminal_context` (utils.py lines 280-308), with the
`get_pane_output()` call replaced by its result `pane_output` (pane capture
is an OS effect modelled separately). `none` models the uncaught IndexError
from `commands[-1]` on an empty list (and the propagated IndexError from
`get_commands`). -/
def get_terminal_context {τ : Type} (enc : String → List τ) (dec : List τ → String)
    (pane_output : String) (shell : Shell) (max_tokens : Int) (max_commands : Nat) :
    Option String :=
  if pane_output = "" then
    some "<terminal_history>No terminal output found.</terminal_history>"
  else if !promptTruthy shell then
    some ("<terminal_history>\n" ++ truncate_pane_output enc dec pane_output max_tokens
      ++ "\n</terminal_history>")
  else
    match get_commands pane_output shell with
    | none => none
    | some commands =>
      let commands := truncate_commands enc (commands.take max_commands) max_tokens
      let commands := commands.reverse
      let previous_commands := commands.dropLast
      match commands.getLast? with
      | none => none
      | some last_command =>
        some ("<terminal_history>\n"
          ++ "<previous_commands>\n"
          ++ String.intercalate "\n"
              (previous_commands.map (fun c => command_to_string c shell.prompt))
          ++ "\n</previous_commands>\n"
          ++ "\n<last_command>\n"
          ++ command_to_string last_command shell.prompt
          ++ "\n</last_command>"
          ++ "\n</terminal_history>")

/-- A non-blank line that contains the prompt case-insensitively: exactly the
lines `commands_loop` treats as prompt lines. -/
def isPromptLine (prompt line : String) : Bool :=
  py_strip line != "" && py_contains (py_lower line) (py_lower prompt)

end Wut

namespace Wut

/-! ### Shared helper lemmas -/

/-- The concrete character-level tokenizer is lossless. -/
theorem charDecode_charEncode (s : String) : charDecode (charEncode s) = s := rfl

/-- The extension component produced by `splitext` is either empty or starts
with a dot. -/
theorem splitext_ext_shape (p : String) :
    (splitext p).2 = "" ∨ ∃ cs : List Char, (splitext p).2 = String.mk ('.' :: cs) := by
  simp only [splitext]
  split
  · split
    · right; exact ⟨_, rfl⟩
    · left; rfl
  · left; rfl

/-- ASCII lowercasing keeps a leading dot in place. -/
theorem py_lower_mk_dot (cs : List Char) :
    ∃ ds : List Char, py_lower (String.mk ('.' :: cs)) = String.mk ('.' :: ds) := by
  refine ⟨cs.map py_lower_char, ?_⟩
  have h : py_lower_char '.' = '.' := by decide
  simp [py_lower, h]

/-- No string starting with a dot is a recognized shell name. -/
theorem mk_dot_not_mem_SHELLS (ds : List Char) : String.mk ('.' :: ds) ∉ SHELLS := by
  intro hmem
  have hhead : (String.mk ('.' :: ds)).data.head? = some '.' := rfl
  simp only [SHELLS, List.mem_cons, List.not_mem_nil, or_false] at hmem
  rcases hmem with h | h | h | h | h | h | h <;> rw [h] at hhead <;>
    exact absurd hhead (by decide)

/-! ### Claims -/

/-- C1: the spec claims that any pane line containing the prompt as a
case-insensitive substring is treated as a prompt line whose command text is
the remainder after the first occurrence of the prompt, trimmed, so that the
line `"MyPrompt> ls -la"` with prompt `"myprompt>"` yields command text
`"ls -la"`. The code's containment test is case-insensitive but its
`line.split(shell.prompt, 1)` is case-sensitive: on that very input the
split finds no occurrence and the `[1]` index raises IndexError (modelled as
`none`), instead of producing any command. With the prompt's exact case the
same line is segmented normally (second conjunct). -/
theorem C1_case_insensitive_match_crashes :
    get_commands "MyPrompt> ls -la" (Shell.mk none none (some "myprompt>")) = none
    ∧ get_commands "myprompt> ls -la" (Shell.mk none none (some "myprompt>")) = some [] := by
  decide

/-- C2: the spec claims the temporary file of `get_pane_output` is removed
on every exit path. The `return ""` taken when no multiplexer is detected
exits from inside the `try` block and skips the `os.remove` that follows it
(there is no `finally`), so on that path the temporary file is leaked
(first conjunct, `temp_removed = false`); the tmux path, the successful
screen path and the caught `CalledProcessError` screen path do fall through
to the removal (remaining conjuncts). -/
theorem C2_temp_file_leak :
    get_pane_output (CaptureEnv.mk none none "" true "") = PaneCapture.mk "" false
    ∧ get_pane_output (CaptureEnv.mk (some "tmux-1") none "captured" true "")
        = PaneCapture.mk "captured" true
    ∧ get_pane_output (CaptureEnv.mk none (some "sty-1") "" true "hard")
        = PaneCapture.mk "hard" true
    ∧ get_pane_output (CaptureEnv.mk none (some "sty-1") "" false "")
        = PaneCapture.mk "" true := by
  decide

/-- C3 counterexample: `truncate_tokens` with `max_tokens = 0` and
`reverse = true` returns the whole text, not the empty string: Python's
`tokens[-0:]` is `tokens[0:]`, the full token list. -/
theorem C3_counterexample :
    truncate_tokens charEncode charDecode "a" 0 true = "a" ∧ ("a" : String) ≠ "" := by
  decide

/-- C3 (amended): for `max_tokens ≤ 0`, the reverse slice keeps the last
`length - (-max_tokens)` tokens computed as `drop (-max_tokens)`; in
particular at `max_tokens = 0` the forward mode yields the empty string but
the reverse mode returns the text unchanged, and for negative `max_tokens`
the forward mode drops the last `|max_tokens|` tokens instead of yielding
the empty string. -/
theorem C3_zero_and_negative_budget {τ : Type} (enc : String → List τ)
    (dec : List τ → String) (hnil : dec [] = "") (hrt : ∀ s, dec (enc s) = s)
    (t : String) (m : Int) (hm : m ≤ 0) :
    truncate_tokens enc dec t m true = dec ((enc t).drop (-m).toNat)
    ∧ (m = 0 → truncate_tokens enc dec t m false = ""
        ∧ truncate_tokens enc dec t m true = t)
    ∧ (m < 0 → truncate_tokens enc dec t m false
        = dec ((enc t).take ((enc t).length - (-m).toNat))) := by
  refine ⟨?_, ?_, ?_⟩
  · simp only [truncate_tokens, if_true]
    rw [py_slice_start, if_pos (by omega : (0:Int) ≤ -m)]
  · rintro rfl
    refine ⟨?_, ?_⟩
    · simp only [truncate_tokens, Bool.false_eq_true, if_false]
      rw [py_slice_stop, if_pos le_rfl]
      simpa [Int.toNat_zero, List.take_zero] using hnil
    · simp only [truncate_tokens, if_true]
      rw [py_slice_start, if_pos (by omega : (0:Int) ≤ -0)]
      simpa using hrt t
  · intro hlt
    simp only [truncate_tokens, Bool.false_eq_true, if_false]
    rw [py_slice_stop, if_neg (by omega : ¬ (0:Int) ≤ m)]

/-- C3 witness: the amended statement instantiated at the character
tokenizer, text `"a"` and budget `0`. -/
theorem C3_zero_and_negative_budget_witness :
    truncate_tokens charEncode charDecode "a" 0 true
      = charDecode ((charEncode "a").drop (-(0:Int)).toNat)
    ∧ ((0:Int) = 0 → truncate_tokens charEncode charDecode "a" 0 false = ""
        ∧ truncate_tokens charEncode charDecode "a" 0 true = "a")
    ∧ ((0:Int) < 0 → truncate_tokens charEncode charDecode "a" 0 false
        = charDecode ((charEncode "a").take ((charEncode "a").length - (-(0:Int)).toNat))) :=
  C3_zero_and_negative_budget charEncode charDecode rfl charDecode_charEncode "a" 0
    (by decide)

/-- C4 counterexample: the two normalizations the claim promises both fail on
the code: `"prompt.zsh"` is not normalized to `"zsh"` (the splitext extension
is `".zsh"`, with its dot, which is not in `SHELLS`), and `"/bin/zsh"` is not
normalized to `"zsh"` either (the splitext root is the whole `"/bin/zsh"`,
not the basename). -/
theorem C4_counterexample :
    get_shell_name (some "prompt.zsh") = none
    ∧ get_shell_name (some "/bin/zsh") = none := by
  decide

/-- C4 (amended): `get_shell_name` checks, in order, the lowercased splitext
extension, the lowercased splitext root, and the lowercased raw candidate
against `SHELLS`, first match winning — but the extension check can never
match (the extension is empty or keeps its leading dot, and no shell name
starts with a dot), so only bare names (raw check, e.g. `"zsh"`, `"ZSH"`)
and names whose splitext root is a shell name (e.g. `"powershell.exe"`) are
recognized; `"prompt.zsh"` and `"/bin/zsh"` yield `none`. -/
theorem C4_normalization_order :
    (∀ p : String, py_lower (splitext p).2 ∉ SHELLS)
    ∧ get_shell_name (some "zsh") = some "zsh"
    ∧ get_shell_name (some "ZSH") = some "zsh"
    ∧ get_shell_name (some "powershell.exe") = some "powershell"
    ∧ get_shell_name (some "prompt.zsh") = none
    ∧ get_shell_name (some "/bin/zsh") = none := by
  refine ⟨?_, by decide, by decide, by decide, by decide, by decide⟩
  intro p
  rcases splitext_ext_shape p with h | ⟨cs, h⟩
  · rw [h]; decide
  · rw [h]
    obtain ⟨ds, hd⟩ := py_lower_mk_dot cs
    rw [hd]
    exact mk_dot_not_mem_SHELLS ds

/-- C5: whenever `n` is at least the token count of `t`, `truncate_tokens`
is the identity on `t`, for both values of the flag, provided the
encode/decode pair is lossless (the round-trip property the spec requires of
the vendor tokenizer). -/
theorem C5_truncate_roundtrip {τ : Type} (enc : String → List τ)
    (dec : List τ → String) (hrt : ∀ s, dec (enc s) = s) (t : String)
    (n : Int) (r : Bool) (hn : (count_tokens enc t : Int) ≤ n) :
    truncate_tokens enc dec t n r = t := by
  have hlen : ((enc t).length : Int) ≤ n := hn
  have h0 : (0:Int) ≤ n := le_trans (Int.natCast_nonneg _) hlen
  have hlen' : (enc t).length ≤ n.toNat := by omega
  cases r with
  | false =>
    simp only [truncate_tokens, Bool.false_eq_true, if_false]
    rw [py_slice_stop, if_pos h0, List.take_of_length_le hlen']
    exact hrt t
  | true =>
    simp only [truncate_tokens, if_true]
    rcases eq_or_lt_of_le h0 with h | h
    · rw [py_slice_start, if_pos (by omega : (0:Int) ≤ -n)]
      have hz : (-n).toNat = 0 := by omega
      rw [hz, List.drop_zero]
      exact hrt t
    · rw [py_slice_start, if_neg (by omega : ¬ (0:Int) ≤ -n)]
      have hz : (enc t).length - (-(-n)).toNat = 0 := by omega
      rw [hz, List.drop_zero]
      exact hrt t

/-- C5 witness: the round-trip instantiated at the character tokenizer,
`t = "hi"` and `n = 2 = count_tokens "hi"`. -/
theorem C5_truncate_roundtrip_witness :
    truncate_tokens charEncode charDecode "hi" 2 false = "hi" :=
  C5_truncate_roundtrip charEncode charDecode charDecode_charEncode "hi" 2 false
    (by decide)

end Wut

namespace Wut

/-- C6: the budget test of `truncate_commands` is per-item against the raw
`max_tokens` (the `num_tokens` counter stays `0`): splitting the newest-first
list around the first command whose text token count exceeds the budget, all
commands before it are returned with their outputs rebuilt line-by-line
against the same raw budget, and that command and everything after it is
dropped. -/
theorem C6_per_item_budget_stop {τ : Type} (enc : String → List τ) (max_tokens : Int)
    (pre : List Command) (c : Command) (post : List Command)
    (hpre : ∀ x ∈ pre, (count_tokens enc x.text : Int) ≤ max_tokens)
    (hc : max_tokens < (count_tokens enc c.text : Int)) :
    truncate_commands enc (pre ++ c :: post) max_tokens
      = pre.map (truncate_command_entry enc max_tokens) := by
  show truncate_commands_loop enc 0 max_tokens (pre ++ c :: post)
      = pre.map (truncate_command_entry enc max_tokens)
  induction pre with
  | nil =>
    simp only [List.nil_append, truncate_commands_loop, List.map_nil]
    rw [if_pos (by omega : (count_tokens enc c.text : Int) + 0 > max_tokens)]
  | cons x xs ih =>
    simp only [List.cons_append, truncate_commands_loop, List.map_cons]
    rw [if_neg (by have := hpre x (by simp); omega)]
    rw [List.append_eq, ih (fun y hy => hpre y (by simp [hy]))]
    rfl

/-- C6 witness: with a three-command list whose middle command text
(`"toolong"`, 7 tokens) exceeds the budget 3, exactly the first command
survives. -/
theorem C6_per_item_budget_stop_witness :
    truncate_commands charEncode
        ([Command.mk "a" "x\ny"] ++ Command.mk "toolong" "" :: [Command.mk "b" ""]) 3
      = [Command.mk "a" "x\ny"].map (truncate_command_entry charEncode 3) :=
  C6_per_item_budget_stop charEncode 3 [Command.mk "a" "x\ny"] (Command.mk "toolong" "")
    [Command.mk "b" ""] (by decide) (by decide)

/-- If every line fits the raw budget, the inner line loop keeps all lines. -/
theorem output_lines_loop_keep_all {τ : Type} (enc : String → List τ) (max_tokens : Int)
    (ls : List String) (h : ∀ l ∈ ls, (count_tokens enc l : Int) ≤ max_tokens) :
    output_lines_loop enc 0 max_tokens ls = ls := by
  induction ls with
  | nil => rfl
  | cons l rest ih =>
    simp only [output_lines_loop]
    rw [if_neg (by have := h l (by simp); omega)]
    rw [ih (fun x hx => h x (by simp [hx]))]

/-- C10: when every command's output is invariant under splitlines-then-join
(no carriage returns, no trailing newline) and every command text and every
output line fits the budget, `truncate_commands` is the identity. -/
theorem C10_within_budget_identity {τ : Type} (enc : String → List τ) (max_tokens : Int)
    (cmds : List Command)
    (hjoin : ∀ c ∈ cmds, String.intercalate "\n" (py_splitlines c.output) = c.output)
    (htext : ∀ c ∈ cmds, (count_tokens enc c.text : Int) ≤ max_tokens)
    (hlines : ∀ c ∈ cmds, ∀ l ∈ py_splitlines c.output,
        (count_tokens enc l : Int) ≤ max_tokens) :
    truncate_commands enc cmds max_tokens = cmds := by
  show truncate_commands_loop enc 0 max_tokens cmds = cmds
  induction cmds with
  | nil => rfl
  | cons c rest ih =>
    simp only [truncate_commands_loop]
    rw [if_neg (by have := htext c (by simp); omega)]
    rw [output_lines_loop_keep_all enc max_tokens _
      (fun l hl => hlines c (by simp) l (by simpa using hl))]
    rw [List.reverse_reverse, hjoin c (by simp)]
    rw [ih (fun y hy => hjoin y (by simp [hy])) (fun y hy => htext y (by simp [hy]))
      (fun y hy => hlines y (by simp [hy]))]

/-- C10 witness: a one-command list within budget is returned unchanged. -/
theorem C10_within_budget_identity_witness :
    truncate_commands charEncode [Command.mk "ls" "a\nb"] 5 = [Command.mk "ls" "a\nb"] :=
  C10_within_budget_identity charEncode 5 [Command.mk "ls" "a\nb"]
    (by decide) (by decide) (by decide)

end Wut

namespace Wut

/-- Once the non-blank flag is set, the scan keeps every remaining line. -/
theorem pane_lines_loop_true (ls : List String) : pane_lines_loop ls true = ls := by
  induction ls with
  | nil => rfl
  | cons l rest ih => simp [pane_lines_loop, ih]

/-- The flag-driven scan started with the flag unset drops exactly the
leading blank lines. -/
theorem pane_lines_loop_false (ls : List String) :
    pane_lines_loop ls false = ls.dropWhile (fun l => py_strip l == "") := by
  induction ls with
  | nil => rfl
  | cons l rest ih =>
    by_cases h : py_strip l = ""
    · simp [pane_lines_loop, List.dropWhile_cons, h, ih]
    · have hb : (py_strip l != "") = true := by simp [h]
      simp [pane_lines_loop, List.dropWhile_cons, h, hb, pane_lines_loop_true]

/-- C9: flat mode scans in reverse, skips the trailing blank lines, keeps
everything from the first non-blank line on, drops the first retained line,
reverses back, joins, token-truncates from the end and strips; on
`"line1\nline2\n\n"` with a large budget the result is exactly `"line1"`. -/
theorem C9_flat_mode :
    (∀ (τ : Type) (enc : String → List τ) (dec : List τ → String)
        (output : String) (max_tokens : Int),
      truncate_pane_output enc dec output max_tokens
        = py_strip (truncate_tokens enc dec
            (String.intercalate "\n"
              ((((py_splitlines output).reverse.dropWhile
                  (fun l => py_strip l == "")).drop 1).reverse))
            max_tokens true))
    ∧ truncate_pane_output charEncode charDecode "line1\nline2\n\n" 1000 = "line1" := by
  constructor
  · intro τ enc dec output max_tokens
    simp only [truncate_pane_output, pane_lines_loop_false]
  · decide

/-- C7: in prompt mode (non-empty pane, truthy prompt, segmentation
returning `cmds`), `get_terminal_context` reaches the IndexError branch of
`commands[-1]` (modelled as `none`) exactly when the sequence left after
`[:max_commands]` slicing and truncation is empty; the last-command access
is safe precisely under the non-emptiness precondition. -/
theorem C7_empty_commands_unsafe {τ : Type} (enc : String → List τ)
    (dec : List τ → String) (pane_output : String) (shell : Shell)
    (max_tokens : Int) (max_commands : Nat) (cmds : List Command)
    (hpane : pane_output ≠ "") (hprompt : promptTruthy shell = true)
    (hcmds : get_commands pane_output shell = some cmds) :
    (get_terminal_context enc dec pane_output shell max_tokens max_commands = none
      ↔ truncate_commands enc (cmds.take max_commands) max_tokens = []) := by
  cases htc : (truncate_commands enc (cmds.take max_commands) max_tokens).reverse.getLast? with
  | none =>
    have h0 : truncate_commands enc (cmds.take max_commands) max_tokens = [] := by
      rw [List.getLast?_reverse] at htc
      exact List.head?_eq_none_iff.mp htc
    simp [get_terminal_context, if_neg hpane, hprompt, hcmds, htc, h0]
  | some lc =>
    have h0 : truncate_commands enc (cmds.take max_commands) max_tokens ≠ [] := by
      intro hz
      rw [hz] at htc
      simp at htc
    simp [get_terminal_context, if_neg hpane, hprompt, hcmds, htc, h0]

/-- C7 witness: on the pane `"P> wut"` (only the in-flight invocation line),
segmentation yields the empty sequence after the exclusion, and
`get_terminal_context` hits the error branch. -/
theorem C7_empty_commands_unsafe_witness :
    (get_terminal_context charEncode charDecode "P> wut"
        (Shell.mk none none (some "P>")) 100 3 = none
      ↔ truncate_commands charEncode (List.take 3 ([] : List Command)) 100 = []) :=
  C7_empty_commands_unsafe charEncode charDecode "P> wut"
    (Shell.mk none none (some "P>")) 100 3 [] (by decide) (by decide) (by decide)

end Wut

namespace Wut

/-- Characterization of the reverse scan: when it succeeds, the result is
empty iff no line is a prompt line, and otherwise its head is the record
built from the first prompt line of the scanned list (the bottom-most prompt
occurrence of the pane), with the buffered non-blank lines below it as
output. -/
theorem commands_loop_spec (prompt : String) :
    ∀ (ls buffer : List String) (full : List Command),
    commands_loop prompt ls buffer = some full →
    (ls.find? (isPromptLine prompt) = none → full = [])
    ∧ (∀ l, ls.find? (isPromptLine prompt) = some l →
        ∃ pre post rest, py_split_first l prompt = some (pre, post)
          ∧ full = Command.mk (py_strip post)
              (py_strip (String.intercalate "\n"
                ((buffer ++ (ls.takeWhile (fun x => !(isPromptLine prompt x))).filter
                    (fun x => py_strip x != "")).reverse))) :: rest) := by
  intro ls
  induction ls with
  | nil =>
    intro buffer full h
    simp only [commands_loop, Option.some.injEq] at h
    refine ⟨fun _ => h.symm, fun l hl => ?_⟩
    simp at hl
  | cons line rest ih =>
    intro buffer full h
    by_cases hb : py_strip line = ""
    · have hpl : isPromptLine prompt line = false := by simp [isPromptLine, hb]
      simp only [commands_loop] at h
      rw [if_pos hb] at h
      obtain ⟨h1, h2⟩ := ih buffer full h
      refine ⟨?_, ?_⟩
      · intro hf
        rw [List.find?_cons_of_neg _ (by simp [hpl])] at hf
        exact h1 hf
      · intro l hl
        rw [List.find?_cons_of_neg _ (by simp [hpl])] at hl
        obtain ⟨pre, post, rest2, hsplit, hfull⟩ := h2 l hl
        refine ⟨pre, post, rest2, hsplit, ?_⟩
        rw [hfull]
        have hf2 : (py_strip line != "") = false := by simp [hb]
        simp [List.takeWhile_cons, hpl, List.filter_cons, hf2]
    · by_cases hc : py_contains (py_lower line) (py_lower prompt) = true
      · have hpl : isPromptLine prompt line = true := by simp [isPromptLine, hb, hc]
        simp only [commands_loop] at h
        rw [if_neg hb, if_pos hc] at h
        cases hsp : py_split_first line prompt with
        | none =>
          rw [hsp] at h
          simp at h
        | some pp =>
          obtain ⟨pre0, post0⟩ := pp
          rw [hsp] at h
          rw [Option.map_eq_some'] at h
          obtain ⟨cs, hcs, hfull⟩ := h
          refine ⟨?_, ?_⟩
          · intro hf
            rw [List.find?_cons_of_pos _ hpl] at hf
            exact absurd hf (by simp)
          · intro l hl
            rw [List.find?_cons_of_pos _ hpl] at hl
            have hll : l = line := by injection hl with h2; exact h2.symm
            subst hll
            refine ⟨pre0, post0, cs, hsp, ?_⟩
            rw [← hfull]
            simp [List.takeWhile_cons, hpl]
      · have hpl : isPromptLine prompt line = false := by simp [isPromptLine, hc]
        simp only [commands_loop] at h
        rw [if_neg hb, if_neg hc] at h
        obtain ⟨h1, h2⟩ := ih (buffer ++ [line]) full h
        refine ⟨?_, ?_⟩
        · intro hf
          rw [List.find?_cons_of_neg _ (by simp [hpl])] at hf
          exact h1 hf
        · intro l hl
          rw [List.find?_cons_of_neg _ (by simp [hpl])] at hl
          obtain ⟨pre, post, rest2, hsplit, hfull⟩ := h2 l hl
          refine ⟨pre, post, rest2, hsplit, ?_⟩
          rw [hfull]
          have hf2 : (py_strip line != "") = true := by simp [hb]
          simp [List.takeWhile_cons, hpl, List.filter_cons, hf2, List.append_assoc]

/-- C8: whenever `get_commands` returns a sequence, that sequence is the
full reverse-scan result with its first (most recent) element dropped
(`commands[1:]`), and when the pane has any prompt line at all, the dropped
head is precisely the record built from the final (bottom-most) prompt
occurrence — so the returned sequence never contains that record. -/
theorem C8_latest_record_excluded (pane_output prompt : String) (shell : Shell)
    (cmds : List Command) (hsp : shell.prompt = some prompt) (hne : prompt ≠ "")
    (hc : get_commands pane_output shell = some cmds) :
    ∃ full : List Command,
      commands_loop prompt ((py_splitlines pane_output).reverse) [] = some full
      ∧ cmds = full.drop 1
      ∧ (∀ l, ((py_splitlines pane_output).reverse).find? (isPromptLine prompt) = some l →
          ∃ pre post rest, py_split_first l prompt = some (pre, post)
            ∧ full = Command.mk (py_strip post)
                (py_strip (String.intercalate "\n"
                  ((((py_splitlines pane_output).reverse.takeWhile
                      (fun x => !(isPromptLine prompt x))).filter
                      (fun x => py_strip x != "")).reverse))) :: rest) := by
  simp only [get_commands, hsp] at hc
  cases hl : commands_loop prompt ((py_splitlines pane_output).reverse) [] with
  | none =>
    rw [hl] at hc
    simp at hc
  | some full =>
    rw [hl] at hc
    rw [Option.map_eq_some'] at hc
    obtain ⟨full2, hfull2, hdrop⟩ := hc
    have hf : full2 = full := by injection hfull2 with hq; exact hq.symm
    rw [hf] at hdrop
    refine ⟨full, rfl, hdrop.symm, ?_⟩
    intro l hfind
    obtain ⟨_, h2⟩ := commands_loop_spec prompt _ [] full hl
    obtain ⟨pre, post, rest, hsplit, hfull⟩ := h2 l hfind
    exact ⟨pre, post, rest, hsplit, by simpa using hfull⟩

/-- C8 witness: on the pane `"P> a\nout\nP> wut"` with prompt `"P>"`,
`get_commands` returns only the older record; the head of the full scan is
the record of the bottom-most prompt line `"P> wut"`, which is dropped. -/
theorem C8_latest_record_excluded_witness :
    ∃ full : List Command,
      commands_loop "P>" ((py_splitlines "P> a\nout\nP> wut").reverse) [] = some full
      ∧ [Command.mk "a" "out"] = full.drop 1
      ∧ (∀ l, ((py_splitlines "P> a\nout\nP> wut").reverse).find? (isPromptLine "P>") = some l →
          ∃ pre post rest, py_split_first l "P>" = some (pre, post)
            ∧ full = Command.mk (py_strip post)
                (py_strip (String.intercalate "\n"
                  ((((py_splitlines "P> a\nout\nP> wut").reverse.takeWhile
                      (fun x => !(isPromptLine "P>" x))).filter
                      (fun x => py_strip x != "")).reverse))) :: rest) :=
  C8_latest_record_excluded "P> a\nout\nP> wut" "P>" (Shell.mk none none (some "P>"))
    [Command.mk "a" "out"] rfl (by decide) (by decide)

end Wut
